import Mathlib

/-!
Verification of the WAF-lya adaptive filtering pipeline.

This file gives a shallow embedding of the WAF's core data structures and
filter logic (Go sources under internal/WAF/) and proves the advertised
behavioral properties about them.

Modelling conventions:
* Instants are integers (`Int`), measured in seconds.  Durations produced by
  the escalation formula are rationals (`Rat`): Go stores durations as
  integer nanoseconds and computes escalated ban durations through
  `float64` / `math.Pow`; for the parameters considered here (integral
  bases, multiplier 2.0) those computations are exact, so exact arithmetic
  models them faithfully.
* Go maps (`sync.Map`, `map[string]time.Time`) are modelled as association
  lists; `Store` overwrites the entry for a key, `Delete` removes it.
* `time.Time` zero values (`IsZero`) are modelled with `Option`: `none` is
  the zero timestamp.
* Strings are processed as `List Char`; Go operates on UTF-8 bytes, and all
  inputs considered here are ASCII, where the two views agree.
-/

/-! ## Ban registry (internal/WAF/module.go, banList) -/

/-- The ban registry: identifier to expiry instant (banEntry.until). -/
abbrev BanMap := List (String × Int)

/-- Lookup of `b.m.Load(id)`. -/
def banLookup (m : BanMap) (id : String) : Option Int :=
  match m.find? (fun p => p.1 == id) with
  | some p => some p.2
  | none => none

/-- `b.m.Store(id, e)`: overwrite any entry for `id`. -/
def banStore (m : BanMap) (id : String) (expiry : Int) : BanMap :=
  (id, expiry) :: m.filter (fun p => !(p.1 == id))

/-- `b.m.Delete(id)`. -/
def banDelete (m : BanMap) (id : String) : BanMap :=
  m.filter (fun p => !(p.1 == id))

/-- `banList.IsBanned`: if an entry exists and `now` is strictly before its
expiry, report banned; otherwise delete any (expired) entry and report not
banned.  Returns the updated registry alongside the answer. -/
def IsBanned (m : BanMap) (id : String) (now : Int) : Bool × BanMap :=
  match banLookup m id with
  | some expiry => if now < expiry then (true, m) else (false, banDelete m id)
  | none => (false, m)

/-- `banList.Ban`: store expiry `now + d`, overwriting any previous entry. -/
def Ban (m : BanMap) (id : String) (now d : Int) : BanMap :=
  banStore m id (now + d)

/-! ## Rate-limit filter (internal/WAF/rate_limit.go) -/

/-- Per-identifier state touched by the rate-limit filter
(State.RateLimitViolations / LastViolationTime / LastSeen in module.go).
`lastViolation = none` models the zero `time.Time`. -/
structure RLState where
  violations : Nat
  lastViolation : Option Int
  lastSeen : Int
deriving DecidableEq

/-- One pass of `RateLimitMiddleware.push` over the per-identifier state,
after the ban check, for a request whose token-bucket admission outcome is
`allowed` (the result of `st.Limiter.Allow()`; the bucket itself is the
`golang.org/x/time/rate` collaborator and is kept abstract).  On a rejection
the violation counter is first reset if more than `resetTTL` has elapsed
since the last violation, then incremented, and the escalated ban duration
`base * mult ^ (violations - 1)` is returned. -/
def rateLimitProcess (base mult : Rat) (resetTTL : Int) (allowed : Bool)
    (now : Int) (st : RLState) : RLState × Option Rat :=
  if allowed then
    ({ st with lastSeen := now }, none)
  else
    let v0 := match st.lastViolation with
      | some lv => if now - lv > resetTTL then 0 else st.violations
      | none => st.violations
    let v := v0 + 1
    (⟨v, some now, now⟩, some (base * mult ^ (v - 1)))

/-- Run a sequence of requests (admission outcome, arrival time) through the
rate-limit filter, collecting each request's ban decision (`none` = passed
through, `some d` = rejected with a ban of duration `d`). -/
def rlRun (base mult : Rat) (resetTTL : Int) :
    List (Bool × Int) → RLState → RLState × List (Option Rat)
  | [], st => (st, [])
  | (allowed, now) :: rest, st =>
    let r := rateLimitProcess base mult resetTTL allowed now st
    let rr := rlRun base mult resetTTL rest r.1
    (rr.1, r.2 :: rr.2)

/-! ## Anomaly (context) filter (ContextMiddleware, unified escalating draft) -/

/-- Per-identifier state touched by the context filter: the
`Meta["resources"]` map of resource id to last-access time, and the
`Meta["bola_violations"]` / `Meta["last_bola_violation_time"]` escalation
pair.  `lastBola = none` models the zero `time.Time`. -/
structure CtxState where
  resources : List (String × Int)
  bolaViolations : Nat
  lastBola : Option Int
  lastSeen : Int
deriving DecidableEq

/-- `resources[resource] = now`: overwrite the entry for the key, or append
a new one. -/
def insertRes (k : String) (t : Int) : List (String × Int) → List (String × Int)
  | [] => [(k, t)]
  | p :: rest => if p.1 = k then (k, t) :: rest else p :: insertRes k t rest

/-- Cleanup of old entries: delete every entry with `now - t > window`
(keep those with `now - t ≤ window`). -/
def pruneRes (now window : Int) (rs : List (String × Int)) : List (String × Int) :=
  rs.filter (fun p => decide (now - p.2 ≤ window))

/-- `if resource != "" { resources[resource] = now }`: record the access
when a resource id was extracted (`none` models the empty string). -/
def recordResource (resource : Option String) (now : Int)
    (rs : List (String × Int)) : List (String × Int) :=
  match resource with
  | some r => insertRes r now rs
  | none => rs

/-- One pass of `ContextMiddleware.push` over the per-identifier state,
after the ban check and resource-id extraction (`resource = none` models
the empty extracted resource string).  Records the access, prunes stale
entries, and if the count of distinct in-window resources exceeds the
threshold, applies the same escalating-ban algorithm as the rate-limit
filter; otherwise resets the BOLA violation counter and timestamp. -/
def contextProcess (window threshold : Int) (banBase mult : Rat) (resetTTL : Int)
    (resource : Option String) (now : Int) (st : CtxState) : CtxState × Option Rat :=
  let rs := pruneRes now window (recordResource resource now st.resources)
  if (rs.length : Int) > threshold then
    let v0 := match st.lastBola with
      | some lv => if now - lv > resetTTL then 0 else st.bolaViolations
      | none => st.bolaViolations
    let v := v0 + 1
    (⟨rs, v, some now, now⟩, some (banBase * mult ^ (v - 1)))
  else
    (⟨rs, 0, none, now⟩, none)

/-- Run a sequence of requests (extracted resource, arrival time) through
the context filter, collecting each request's rejection flag
(`true` = anomaly detected, identifier banned and request rejected). -/
def ctxRun (window threshold : Int) (banBase mult : Rat) (resetTTL : Int) :
    List (Option String × Int) → CtxState → CtxState × List Bool
  | [], st => (st, [])
  | (res, now) :: rest, st =>
    let r := contextProcess window threshold banBase mult resetTTL res now st
    let rr := ctxRun window threshold banBase mult resetTTL rest r.1
    (rr.1, r.2.isSome :: rr.2)

/-- 21 requests for the distinct numeric resource ids "1" … "21", all at
the same instant (hence all inside any positive window). -/
def enumReqs : List (Option String × Int) :=
  (List.range 21).map (fun i => (some (toString (i + 1)), (0 : Int)))

/-! ## Client-identifier derivation (internal/WAF/module.go, extractIP) -/

/-- Index of the last occurrence of a character (`last(hostPort, ':')`). -/
def lastIndexOfChar (c : Char) : List Char → Option Nat
  | [] => none
  | x :: rest =>
    match lastIndexOfChar c rest with
    | some i => some (i + 1)
    | none => if x = c then some 0 else none

/-- Index of the first occurrence of a character (`byteIndex`). -/
def indexOfChar (c : Char) : List Char → Option Nat
  | [] => none
  | x :: rest => if x = c then some 0 else (indexOfChar c rest).map (· + 1)

/-- Go's `net.SplitHostPort`: the port starts after the last colon; a
leading `[` starts a bracketed (IPv6) host whose closing `]` must sit just
before that colon; stray colons or brackets are errors (`none`). -/
def splitHostPort (s : List Char) : Option (List Char × List Char) :=
  match lastIndexOfChar ':' s with
  | none => none
  | some i =>
    match s with
    | [] => none
    | c :: _ =>
      if c = '[' then
        match indexOfChar ']' s with
        | none => none
        | some endIdx =>
          if endIdx + 1 = s.length then none
          else if endIdx + 1 = i then
            if (s.drop 1).contains '[' then none
            else if (s.drop (endIdx + 1)).contains ']' then none
            else some ((s.drop 1).take (endIdx - 1), s.drop (i + 1))
          else none
      else
        if (s.take i).contains ':' then none
        else if s.contains '[' then none
        else if s.contains ']' then none
        else some (s.take i, s.drop (i + 1))

/-- `extractIP`: host portion of `host:port`, or the input unchanged when it
does not parse as `host:port`. -/
def extractIP (s : String) : String :=
  match splitHostPort s.data with
  | some hp => String.mk hp.1
  | none => s

/-! ## Configuration and orchestrator fallbacks (module.go RunWithConfig) -/

/-- rate_limit section of the JSON configuration.  Absent JSON fields are
Go zero values. -/
structure RateLimitConfig where
  limit : Rat
  burst : Int
  banSeconds : Int
  multiplier : Rat
  violationResetHrs : Int
deriving DecidableEq

/-- signature section of the JSON configuration. -/
structure SignatureConfig where
  logMatches : Bool
deriving DecidableEq

/-- context section of the JSON configuration.  `multiplier` and
`violationResetHours` are read by RunWithConfig (cfg.Context.Multiplier,
cfg.Context.ViolationResetHours); the historical config-struct draft kept in
the repository predates them, so their declaration follows the spec's
anomaly configuration surface. -/
structure ContextConfig where
  windowSeconds : Int
  threshold : Int
  banSeconds : Int
  multiplier : Rat
  violationResetHours : Int
deriving DecidableEq

/-- The loaded configuration record. -/
structure Config where
  middlewareChain : List String
  rateLimit : RateLimitConfig
  signature : SignatureConfig
  context : ContextConfig
deriving DecidableEq

/-- Parameters a RateLimitMiddleware is constructed with. -/
structure RateLimitParams where
  limit : Rat
  burst : Int
  banDuration : Rat
  multiplier : Rat
  violationResetTTL : Rat
deriving DecidableEq

/-- Parameters a ContextMiddleware is constructed with. -/
structure ContextParams where
  window : Rat
  threshold : Int
  banDuration : Rat
  multiplier : Rat
  violationResetTTL : Rat
deriving DecidableEq

/-- `NewRateLimitMiddleware(waf, 5.0, 20, 30*time.Second)` plus its built-in
multiplier 2.0 and 24h violation reset. -/
def defaultRateLimitParams : RateLimitParams := ⟨5, 20, 30, 2, 86400⟩

/-- `NewContextMiddleware` defaults: 60s window, threshold 20, 5min ban,
multiplier 2.0, 24h violation reset. -/
def defaultContextParams : ContextParams := ⟨60, 20, 300, 2, 86400⟩

/-- The rate_limit branch of RunWithConfig: each configured parameter
overrides the default only when strictly positive.  The Go code applies the
`> 0` guards sequentially, each to a distinct field, which is modelled
field-wise here. -/
def buildRateLimit (cfg : Option Config) : RateLimitParams :=
  match cfg with
  | none => defaultRateLimitParams
  | some c =>
    { limit := if c.rateLimit.limit > 0 then c.rateLimit.limit else 5
      burst := if c.rateLimit.burst > 0 then c.rateLimit.burst else 20
      banDuration := if c.rateLimit.banSeconds > 0 then (c.rateLimit.banSeconds : Rat) else 30
      multiplier := if c.rateLimit.multiplier > 0 then c.rateLimit.multiplier else 2
      violationResetTTL :=
        if c.rateLimit.violationResetHrs > 0
        then (c.rateLimit.violationResetHrs : Rat) * 3600 else 86400 }

/-- The context branch of RunWithConfig: when `cfg.Context.WindowSeconds > 0`
the middleware is built via NewContextMiddlewareWithConfig from the
configured window, threshold and ban seconds (the latter two taken as-is,
with no per-field guard), with only multiplier and violation-reset-hours
individually guarded; otherwise NewContextMiddleware's defaults are used. -/
def buildContext (cfg : Option Config) : ContextParams :=
  match cfg with
  | none => defaultContextParams
  | some c =>
    if c.context.windowSeconds > 0 then
      { window := (c.context.windowSeconds : Rat)
        threshold := c.context.threshold
        banDuration := (c.context.banSeconds : Rat)
        multiplier := if c.context.multiplier > 0 then c.context.multiplier else 2
        violationResetTTL :=
          if c.context.violationResetHours > 0
          then (c.context.violationResetHours : Rat) * 3600 else 86400 }
    else defaultContextParams

/-- A configuration whose context section sets only the window: threshold
and ban seconds are left at their JSON zero values. -/
def cfgWindowOnly : Config :=
  { middlewareChain := ["context"]
    rateLimit := ⟨0, 0, 0, 0, 0⟩
    signature := ⟨false⟩
    context := ⟨60, 0, 0, 0, 0⟩ }

/-! ## Signature filter (SignatureMiddleware, unified draft)

The normalization pipeline of `normalizeForSignature` and the six default
rules of `NewSignatureMiddleware` are embedded as executable string
functions.  Each regex replacement / match is translated to a direct scan
with the same leftmost (and, for `.*?`, shortest) match semantics as Go's
RE2 engine on the inputs considered. -/

/-- Go regexp's whitespace class `\s` = `[\t\n\f\r ]`. -/
def isRegexSpace (c : Char) : Bool :=
  c = '\t' || c = '\n' || c = '\x0c' || c = '\r' || c = ' '

/-- ASCII fragment of the whitespace trimmed by `strings.TrimSpace`
(space, tab, newline, vertical tab, form feed, carriage return). -/
def isTrimSpace (c : Char) : Bool :=
  c = ' ' || c = '\t' || c = '\n' || c = '\x0b' || c = '\x0c' || c = '\r'

/-- Hexadecimal digit test used by `url.QueryUnescape`. -/
def isHexChar (c : Char) : Bool :=
  c.isDigit || ('a' ≤ c && c ≤ 'f') || ('A' ≤ c && c ≤ 'F')

/-- Value of a hexadecimal digit. -/
def hexVal (c : Char) : Nat :=
  if c.isDigit then c.toNat - 48
  else if 'a' ≤ c && c ≤ 'f' then c.toNat - 87
  else c.toNat - 55

/-- Fueled worker for `percentDecode` (each step consumes at least one
input character, so the input length is enough fuel). -/
def percentDecodeAux : Nat → List Char → Option (List Char)
  | _, [] => some []
  | 0, _ :: _ => none
  | fuel + 1, c :: rest =>
    if c = '%' then
      match rest with
      | a :: b :: rest2 =>
        if isHexChar a && isHexChar b then
          (percentDecodeAux fuel rest2).map
            (fun t => Char.ofNat (16 * hexVal a + hexVal b) :: t)
        else none
      | _ => none
    else if c = '+' then (percentDecodeAux fuel rest).map (fun t => ' ' :: t)
    else (percentDecodeAux fuel rest).map (fun t => c :: t)

/-- `url.QueryUnescape`: decode `%XX` escapes, map `+` to space; a malformed
percent escape makes the whole conversion fail (`none`), in which case the
caller keeps the original string. -/
def percentDecode (l : List Char) : Option (List Char) :=
  percentDecodeAux l.length l

/-- Fueled worker for `htmlUnescape`. -/
def htmlUnescapeAux : Nat → List Char → List Char
  | 0, l => l
  | _ + 1, [] => []
  | fuel + 1, c :: rest =>
    if c = '&' then
      match rest with
      | 'l' :: 't' :: ';' :: rest2 => '<' :: htmlUnescapeAux fuel rest2
      | 'g' :: 't' :: ';' :: rest2 => '>' :: htmlUnescapeAux fuel rest2
      | 'a' :: 'm' :: 'p' :: ';' :: rest2 => '&' :: htmlUnescapeAux fuel rest2
      | 'q' :: 'u' :: 'o' :: 't' :: ';' :: rest2 => Char.ofNat 34 :: htmlUnescapeAux fuel rest2
      | _ => '&' :: htmlUnescapeAux fuel rest
    else c :: htmlUnescapeAux fuel rest

/-- `html.UnescapeString`, restricted to the named entities this
development exercises (lt, gt, amp, quot); an unrecognized `&` is kept
verbatim, and inputs without `&` are unaffected, as in Go. -/
def htmlUnescape (l : List Char) : List Char :=
  htmlUnescapeAux l.length l

/-- `strings.TrimSpace` (ASCII fragment). -/
def trimSpaceStr (l : List Char) : List Char :=
  (((l.dropWhile isTrimSpace).reverse).dropWhile isTrimSpace).reverse

/-- Worker for the `\s+` to single-space replacement; `prevSpace` records
whether the previous character belonged to a whitespace run. -/
def collapseWsAux : Bool → List Char → List Char
  | _, [] => []
  | prevSpace, c :: rest =>
    if isRegexSpace c then
      if prevSpace then collapseWsAux true rest
      else ' ' :: collapseWsAux true rest
    else c :: collapseWsAux false rest

/-- `regexp.MustCompile(backslash-s-plus).ReplaceAllString(s, " ")`:
collapse every maximal whitespace run to one space. -/
def collapseWs (l : List Char) : List Char := collapseWsAux false l

/-- Drop everything up to and including the first occurrence of `pat`
(`none` when `pat` does not occur): the shortest-match search for the
closing delimiter of a non-greedy comment pattern. -/
def dropThrough (pat : List Char) : List Char → Option (List Char)
  | [] => none
  | c :: rest =>
    if pat.isPrefixOf (c :: rest) then some ((c :: rest).drop pat.length)
    else dropThrough pat rest

/-- Fueled worker for removing `start … stop` comment spans, leftmost-first
with shortest closing delimiter, exactly as `ReplaceAllString` with a
non-greedy pattern; an unterminated opener is copied verbatim.  The fuel
only bounds recursion (each step consumes at least one input character), so
`stripDelim` below supplies the input length. -/
def stripDelimAux (strt stop : List Char) : Nat → List Char → List Char
  | 0, l => l
  | _ + 1, [] => []
  | fuel + 1, c :: rest =>
    if strt.isPrefixOf (c :: rest) then
      match dropThrough stop ((c :: rest).drop strt.length) with
      | some rest2 => stripDelimAux strt stop fuel rest2
      | none => c :: stripDelimAux strt stop fuel rest
    else c :: stripDelimAux strt stop fuel rest

/-- Remove `start … stop` comment spans (`(?s)/\*.*?\*/` and the HTML
comment pattern are both instances). -/
def stripDelim (strt stop : List Char) (l : List Char) : List Char :=
  stripDelimAux strt stop l.length l

/-- Fueled worker for `(?m)--.*$`: from each `--` on, discard the rest of
the line (the newline itself is not consumed). -/
def stripLineAux : Nat → List Char → List Char
  | 0, l => l
  | _ + 1, [] => []
  | fuel + 1, c :: rest =>
    if c = '-' then
      match rest with
      | c2 :: rest2 =>
        if c2 = '-' then stripLineAux fuel (rest2.dropWhile (fun ch => !(ch = '\n')))
        else c :: stripLineAux fuel rest
      | [] => [c]
    else c :: stripLineAux fuel rest

/-- Remove `--` line comments. -/
def stripLineComments (l : List Char) : List Char := stripLineAux l.length l

/-- `normalizeForSignature`: URL-decode (keeping the original on error),
HTML-entity unescape, lowercase, trim, collapse whitespace runs, strip
block comments, strip line comments, strip HTML comments. -/
def normalizeForSignature (l : List Char) : List Char :=
  if l = [] then []
  else
    let s1 := match percentDecode l with
      | some d => d
      | none => l
    let s2 := htmlUnescape s1
    let s3 := s2.map Char.toLower
    let s4 := trimSpaceStr s3
    let s5 := collapseWs s4
    let s6 := stripDelim ['/', '*'] ['*', '/'] s5
    let s7 := stripLineComments s6
    let s8 := stripDelim ['<', '!', '-', '-'] ['-', '-', '>'] s7
    s8

/-- Does `p` hold of some suffix of the list?  Matching a regex anywhere in
a string is matching its pattern at the head of some suffix. -/
def anySuffix (p : List Char → Bool) : List Char → Bool
  | [] => p []
  | c :: rest => p (c :: rest) || anySuffix p rest

/-- Substring occurrence test. -/
def containsSeq (pat l : List Char) : Bool :=
  anySuffix (fun t => pat.isPrefixOf t) l

/-- The SQL keywords of the first default rule. -/
def sqlKeywords : List (List Char) :=
  [['u','n','i','o','n'], ['s','e','l','e','c','t'], ['i','n','s','e','r','t'],
   ['u','p','d','a','t','e'], ['d','e','l','e','t','e'], ['d','r','o','p'],
   ['c','r','e','a','t','e'], ['a','l','t','e','r']]

/-- Head of the `(\*|[a-z_]+)` group. -/
def sqlTarget : List Char → Bool
  | c :: _ => c = '*' || ('a' ≤ c && c ≤ 'z') || c = '_'
  | [] => false

/-- One-or-more whitespace, then the keyword's object. -/
def sqlAfterKw : List Char → Bool
  | c :: rest => isRegexSpace c && sqlTarget (rest.dropWhile isRegexSpace)
  | [] => false

/-- Rule 1 at a fixed position: a keyword, whitespace, `*` or identifier. -/
def sqlAt (t : List Char) : Bool :=
  sqlKeywords.any (fun kw => kw.isPrefixOf t && sqlAfterKw (t.drop kw.length))

/-- Default rule `(?i)(union|select|...)\s+(\*|[a-z_]+)`. -/
def ruleSqlKeyword (l : List Char) : Bool :=
  anySuffix sqlAt (l.map Char.toLower)

/-- Search for `</script>` with no interleaving newline (`.` in RE2 does
not match a newline). -/
def scriptClose : List Char → Bool
  | [] => false
  | c :: rest =>
    if (['<','/','s','c','r','i','p','t','>']).isPrefixOf (c :: rest) then true
    else if c = '\n' then false
    else scriptClose rest

/-- Rule 2 at a fixed position: `<script`, then `[^>]*>`, then a closing
`</script>` on the same line. -/
def scriptAt (t : List Char) : Bool :=
  (['<','s','c','r','i','p','t']).isPrefixOf t &&
    (match (t.drop 7).dropWhile (fun c => !(c = '>')) with
     | c :: rest => c = '>' && scriptClose rest
     | [] => false)

/-- Default rule `(?i)<script[^>]*>.*?</script>`. -/
def ruleScriptTag (l : List Char) : Bool :=
  anySuffix scriptAt (l.map Char.toLower)

/-- Default rule `(?i)javascript:`. -/
def ruleJavascriptScheme (l : List Char) : Bool :=
  containsSeq ['j','a','v','a','s','c','r','i','p','t',':'] (l.map Char.toLower)

/-- Event-handler rule at a fixed position: the keyword, `\s*`, `=`. -/
def onAt (kw : List Char) (t : List Char) : Bool :=
  kw.isPrefixOf t &&
    (match (t.drop kw.length).dropWhile isRegexSpace with
     | c :: _ => c = '='
     | [] => false)

/-- Default rules `(?i)onerror\s*=` and `(?i)onload\s*=`. -/
def ruleOnHandler (kw : List Char) (l : List Char) : Bool :=
  anySuffix (onAt kw) (l.map Char.toLower)

/-- Path-traversal rule at a fixed position: `..` then `/` or `\`. -/
def travAt : List Char → Bool
  | a :: b :: c :: _ => a = '.' && b = '.' && (c = '\\' || c = '/')
  | _ => false

/-- Default rule `(?i)\.\.[\\\/]`. -/
def rulePathTraversal (l : List Char) : Bool :=
  anySuffix travAt (l.map Char.toLower)

/-- The six default rules compiled by `NewSignatureMiddleware`, in order. -/
def signatureRules : List (List Char → Bool) :=
  [ruleSqlKeyword, ruleScriptTag, ruleJavascriptScheme,
   ruleOnHandler ['o','n','e','r','r','o','r'],
   ruleOnHandler ['o','n','l','o','a','d'],
   rulePathTraversal]

/-- `SignatureMiddleware.push`, decision part: the candidates `r.URL.Path`
and `r.URL.RawQuery` are normalized and tested against every rule; any
match rejects. -/
def signatureCheck (path rawQuery : String) : Bool :=
  [path.data, rawQuery.data].any
    (fun s => signatureRules.any (fun rule => rule (normalizeForSignature s)))

/-! ## Middleware decisions (for the pass-through behavior) -/

/-- Outcome of one middleware on one request: reject with 403, reject with
429, or forward to the next handler. -/
inductive Decision where
  | forbidden
  | tooMany
  | next
deriving DecidableEq

/-- `ContextMiddleware.push` around `contextProcess`: ban short-circuit,
pass-through on absent state, otherwise process and reject on anomaly. -/
def contextPush (window threshold : Int) (banBase mult : Rat) (resetTTL : Int)
    (banned : Bool) (stOpt : Option CtxState) (resource : Option String)
    (now : Int) : Option CtxState × Decision :=
  if banned then (stOpt, Decision.forbidden)
  else
    match stOpt with
    | none => (none, Decision.next)
    | some st =>
      let r := contextProcess window threshold banBase mult resetTTL resource now st
      (some r.1, match r.2 with | some _ => Decision.forbidden | none => Decision.next)

/-- `RateLimitMiddleware.push` around `rateLimitProcess`: ban short-circuit,
pass-through on absent state, otherwise process and reject on exhaustion. -/
def rateLimitPush (base mult : Rat) (resetTTL : Int) (banned : Bool)
    (stOpt : Option RLState) (allowed : Bool) (now : Int) :
    Option RLState × Decision :=
  if banned then (stOpt, Decision.forbidden)
  else
    match stOpt with
    | none => (none, Decision.next)
    | some st =>
      let r := rateLimitProcess base mult resetTTL allowed now st
      (some r.1, match r.2 with | some _ => Decision.tooMany | none => Decision.next)

/-- `SignatureMiddleware.push`: ban short-circuit, then the signature test;
the per-identifier state store is never consulted. -/
def signaturePush (banned : Bool) (path rawQuery : String) : Decision :=
  if banned then Decision.forbidden
  else if signatureCheck path rawQuery then Decision.forbidden
  else Decision.next

/-- `stateStore.Get` returns an absent (nil) state exactly for the empty
identifier; any other identifier gets a (possibly fresh) state. -/
def stateAbsent (id : String) : Bool := id == ""

/-- The 62 ASCII alphanumeric characters: the alphabet of "benign
alphanumeric content". -/
def alphanumChars : List Char :=
  "abcdefghijklmnopqrstuvwxyzABCDEFGHIJKLMNOPQRSTUVWXYZ0123456789".data

/-! ## Helper lemmas for the ban registry -/

theorem banLookup_store (m : BanMap) (id : String) (u : Int) :
    banLookup (banStore m id u) id = some u := by
  simp [banLookup, banStore, List.find?]

theorem banLookup_delete (m : BanMap) (id : String) :
    banLookup (banDelete m id) id = none := by
  induction m with
  | nil => rfl
  | cons p t ih =>
    by_cases h : p.1 = id
    · simpa [banDelete, h] using ih
    · simpa [banDelete, banLookup, List.find?, h] using ih

theorem isBanned_after_ban (m : BanMap) (id : String) (t0 d t : Int) :
    IsBanned (Ban m id t0 d) id t
      = if t < t0 + d then (true, Ban m id t0 d)
        else (false, banDelete (Ban m id t0 d) id) := by
  unfold IsBanned Ban
  rw [banLookup_store]

/-! ## Claim theorems: ban registry -/

/-- C1: after `Ban(id, d)` at time `t0`, `IsBanned(id)` returns true exactly
while the query time is strictly before `t0 + d`; a query observing an
expired entry deletes it; and a second `Ban(id, d2)` at `t1` fully replaces
the stored expiry with `t1 + d2` (last-write-wins). -/
theorem ban_registry_semantics (m : BanMap) (id : String) (t0 d t t1 d2 : Int) :
    ((IsBanned (Ban m id t0 d) id t).1 = decide (t < t0 + d))
    ∧ (t0 + d ≤ t → banLookup ((IsBanned (Ban m id t0 d) id t).2) id = none)
    ∧ banLookup (Ban (Ban m id t0 d) id t1 d2) id = some (t1 + d2) := by
  refine ⟨?_, ?_, ?_⟩
  · rw [isBanned_after_ban]
    by_cases h : t < t0 + d <;> simp [h]
  · intro h
    rw [isBanned_after_ban, if_neg (not_lt.mpr h)]
    exact banLookup_delete _ _
  · exact banLookup_store _ _ _

theorem ban_registry_semantics_witness :
    ((IsBanned (Ban [] "a" 0 10) "a" 3).1 = true)
    ∧ banLookup ((IsBanned (Ban [] "a" 0 10) "a" 12).2) "a" = none
    ∧ banLookup (Ban (Ban [] "a" 0 10) "a" 5 7) "a" = some 12 := by
  have h3 := ban_registry_semantics [] "a" 0 10 3 5 7
  have h12 := ban_registry_semantics [] "a" 0 10 12 5 7
  exact ⟨h3.1.trans (by decide), h12.2.1 (by decide), h3.2.2.trans (by decide)⟩

/-- C10: banning with a non-positive duration is an observational no-op:
any subsequent `IsBanned` query (at or after the ban time) returns false and
deletes the entry, so such a ban never causes a rejection. -/
theorem ban_nonpositive_noop (m : BanMap) (id : String) (t0 d t : Int)
    (hd : d ≤ 0) (ht : t0 ≤ t) :
    (IsBanned (Ban m id t0 d) id t).1 = false
    ∧ banLookup ((IsBanned (Ban m id t0 d) id t).2) id = none := by
  have hlt : ¬ t < t0 + d := not_lt.mpr (by omega)
  rw [isBanned_after_ban, if_neg hlt]
  exact ⟨rfl, banLookup_delete _ _⟩

theorem ban_nonpositive_noop_witness :
    (IsBanned (Ban [] "x" 5 (-3) ) "x" 5).1 = false
    ∧ banLookup ((IsBanned (Ban [] "x" 5 (-3)) "x" 5).2) "x" = none :=
  ban_nonpositive_noop [] "x" 5 (-3) 5 (by decide) (by decide)

/-! ## Claim theorems: rate-limit filter -/

/-- C2: on each rate-limit rejection the violation counter is reset when the
time since the last violation exceeds the reset window, then incremented, and
the ban lasts `base * multiplier ^ (count - 1)`.  With the defaults
(base 30s, multiplier 2.0, reset 24h = 86400s), four temporally-clustered
violations from a fresh state are banned for 30, 60, 120 and 240 seconds, and
a violation arriving after the reset window has elapsed is banned for the
base duration again. -/
theorem rate_limit_escalation (t1 t2 t3 t4 : Int)
    (h12 : t2 - t1 ≤ 86400) (h23 : t3 - t2 ≤ 86400) (h34 : t4 - t3 ≤ 86400) :
    (rlRun 30 2 86400 [(false, t1), (false, t2), (false, t3), (false, t4)]
        ⟨0, none, 0⟩).2 = [some 30, some 60, some 120, some 240]
    ∧ ∀ (st : RLState) (lv now : Int), st.lastViolation = some lv →
        now - lv > 86400 →
        (rateLimitProcess 30 2 86400 false now st).2 = some 30 := by
  constructor
  · have n12 : ¬ (t2 - t1 > 86400) := not_lt.mpr h12
    have n23 : ¬ (t3 - t2 > 86400) := not_lt.mpr h23
    have n34 : ¬ (t4 - t3 > 86400) := not_lt.mpr h34
    have e1 : rateLimitProcess 30 2 86400 false t1 ⟨0, none, 0⟩
        = (⟨1, some t1, t1⟩, some 30) := by
      norm_num [rateLimitProcess]
    have e2 : rateLimitProcess 30 2 86400 false t2 ⟨1, some t1, t1⟩
        = (⟨2, some t2, t2⟩, some 60) := by
      norm_num [rateLimitProcess, n12]
    have e3 : rateLimitProcess 30 2 86400 false t3 ⟨2, some t2, t2⟩
        = (⟨3, some t3, t3⟩, some 120) := by
      norm_num [rateLimitProcess, n23]
    have e4 : rateLimitProcess 30 2 86400 false t4 ⟨3, some t3, t3⟩
        = (⟨4, some t4, t4⟩, some 240) := by
      norm_num [rateLimitProcess, n34]
    simp [rlRun, e1, e2, e3, e4]
  · intro st lv now hlv hgt
    simp [rateLimitProcess, hlv, hgt]

theorem rate_limit_escalation_witness :
    (rlRun 30 2 86400 [(false, 0), (false, 10), (false, 20), (false, 30)]
        ⟨0, none, 0⟩).2 = [some 30, some 60, some 120, some 240]
    ∧ (rateLimitProcess 30 2 86400 false 100000 ⟨3, some 0, 0⟩).2 = some 30 := by
  have h := rate_limit_escalation 0 10 20 30 (by decide) (by decide) (by decide)
  exact ⟨h.1, h.2 ⟨3, some 0, 0⟩ 0 100000 rfl (by decide)⟩

/-- C8: a request admitted by the token bucket leaves the violation counter
and the last-violation timestamp unchanged and is passed through; at the next
violation the counter resets exactly when the reset window has elapsed
(otherwise it increments). -/
theorem rate_limit_frame (base mult : Rat) (resetTTL now : Int) (st : RLState) :
    ((rateLimitProcess base mult resetTTL true now st).1.violations = st.violations
      ∧ (rateLimitProcess base mult resetTTL true now st).1.lastViolation = st.lastViolation
      ∧ (rateLimitProcess base mult resetTTL true now st).2 = none)
    ∧ (∀ lv, st.lastViolation = some lv → now - lv ≤ resetTTL →
        (rateLimitProcess base mult resetTTL false now st).1.violations
          = st.violations + 1)
    ∧ (∀ lv, st.lastViolation = some lv → now - lv > resetTTL →
        (rateLimitProcess base mult resetTTL false now st).1.violations = 1) := by
  refine ⟨⟨?_, ?_, ?_⟩, ?_, ?_⟩
  · simp [rateLimitProcess]
  · simp [rateLimitProcess]
  · simp [rateLimitProcess]
  · intro lv hlv hle
    simp [rateLimitProcess, hlv, not_lt.mpr hle]
  · intro lv hlv hgt
    simp [rateLimitProcess, hlv, hgt]

theorem rate_limit_frame_witness :
    ((rateLimitProcess 30 2 86400 true 7 ⟨2, some 1, 0⟩).1.violations = 2
      ∧ (rateLimitProcess 30 2 86400 true 7 ⟨2, some 1, 0⟩).1.lastViolation = some 1
      ∧ (rateLimitProcess 30 2 86400 true 7 ⟨2, some 1, 0⟩).2 = none)
    ∧ (rateLimitProcess 30 2 86400 false 7 ⟨2, some 1, 0⟩).1.violations = 3
    ∧ (rateLimitProcess 30 2 86400 false 99999 ⟨2, some 1, 0⟩).1.violations = 1 := by
  have h := rate_limit_frame 30 2 86400 7 ⟨2, some 1, 0⟩
  have h2 := rate_limit_frame 30 2 86400 99999 ⟨2, some 1, 0⟩
  exact ⟨h.1, h.2.1 1 rfl (by decide), h2.2.2 1 rfl (by decide)⟩

/-! ## Helper lemmas for the context filter -/

theorem pruneRes_mem {now window : Int} {rs : List (String × Int)}
    {k : String} {t : Int} (h : (k, t) ∈ pruneRes now window rs) :
    now - t ≤ window := by
  have := (List.mem_filter.mp h).2
  simpa using this

theorem contextProcess_resources (window threshold : Int) (banBase mult : Rat)
    (resetTTL : Int) (resource : Option String) (now : Int) (st : CtxState) :
    (contextProcess window threshold banBase mult resetTTL resource now st).1.resources
      = pruneRes now window (recordResource resource now st.resources) := by
  by_cases hc : ((pruneRes now window
      (recordResource resource now st.resources)).length : Int) > threshold <;>
    simp [contextProcess, hc]

theorem ctx_single_step (r : String) (now : Int) (st : CtxState)
    (h : st.resources = [] ∨ ∃ u, st.resources = [(r, u)]) :
    contextProcess 60 20 300 2 86400 (some r) now st
      = (⟨[(r, now)], 0, none, now⟩, none) := by
  rcases h with h | ⟨u, h⟩ <;>
    norm_num [contextProcess, recordResource, insertRes, pruneRes, h]

theorem ctx_same_resource (r : String) (ts : List Int) (st : CtxState)
    (h : st.resources = [] ∨ ∃ u, st.resources = [(r, u)]) :
    ∀ b ∈ (ctxRun 60 20 300 2 86400 (ts.map (fun t => (some r, t))) st).2,
      b = false := by
  induction ts generalizing st with
  | nil => simp [ctxRun]
  | cons t ts ih =>
    have hs := ctx_single_step r t st h
    simp only [List.map_cons, ctxRun, hs, Option.isSome_none]
    intro b hb
    rcases List.mem_cons.mp hb with hb | hb
    · exact hb
    · exact ih ⟨[(r, t)], 0, none, t⟩ (Or.inr ⟨t, rfl⟩) b hb

/-! ## Claim theorems: anomaly filter -/

/-- C3: with window 60s and threshold 20, the 21st distinct numeric resource
id accessed within the window from one identifier is rejected and banned
while the first 20 pass; repeatedly accessing one single resource id never
triggers a rejection; and an entry whose recorded timestamp is older than
the window is pruned and does not count toward the unique-count. -/
theorem anomaly_sliding_window :
    ((ctxRun 60 20 300 2 86400 enumReqs ⟨[], 0, none, 0⟩).2
        = List.replicate 20 false ++ [true])
    ∧ (∀ (r : String) (ts : List Int) (st : CtxState),
        (st.resources = [] ∨ ∃ u, st.resources = [(r, u)]) →
        ∀ b ∈ (ctxRun 60 20 300 2 86400 (ts.map (fun t => (some r, t))) st).2,
          b = false)
    ∧ (∀ (window threshold : Int) (banBase mult : Rat) (resetTTL : Int)
        (res : Option String) (now : Int) (st : CtxState) (k : String) (t : Int),
        now - t > window →
        (k, t) ∉ (contextProcess window threshold banBase mult resetTTL
            res now st).1.resources) := by
  refine ⟨by decide, ctx_same_resource, ?_⟩
  intro window threshold banBase mult resetTTL res now st k t hgt hmem
  rw [contextProcess_resources] at hmem
  exact absurd (pruneRes_mem hmem) (not_le.mpr hgt)

theorem anomaly_sliding_window_witness :
    ((ctxRun 60 20 300 2 86400 enumReqs ⟨[], 0, none, 0⟩).2
        = List.replicate 20 false ++ [true])
    ∧ ((ctxRun 60 20 300 2 86400 ([0, 3].map (fun t => (some "7", t)))
          ⟨[], 0, none, 0⟩).2.all (fun b => decide (b = false)) = true)
    ∧ ("5", (-100 : Int)) ∉ (contextProcess 60 20 300 2 86400 (some "7") 0
          ⟨[("5", -100)], 0, none, 0⟩).1.resources := by
  refine ⟨anomaly_sliding_window.1, ?_,
    anomaly_sliding_window.2.2 60 20 300 2 86400 (some "7") 0
      ⟨[("5", -100)], 0, none, 0⟩ "5" (-100) (by decide)⟩
  rw [List.all_eq_true]
  intro b hb
  rw [decide_eq_true_eq]
  exact anomaly_sliding_window.2.1 "7" [0, 3] ⟨[], 0, none, 0⟩ (Or.inl rfl) b hb

/-- C7: on a request that does not exceed the unique-resource threshold, the
context filter resets the identifier's BOLA violation counter to zero and
its last-violation timestamp to the zero time before forwarding. -/
theorem anomaly_counter_reset_on_pass (window threshold : Int)
    (banBase mult : Rat) (resetTTL : Int) (res : Option String) (now : Int)
    (st : CtxState)
    (h : (contextProcess window threshold banBase mult resetTTL res now st).2 = none) :
    (contextProcess window threshold banBase mult resetTTL res now st).1.bolaViolations = 0
    ∧ (contextProcess window threshold banBase mult resetTTL res now st).1.lastBola = none := by
  by_cases hc : ((pruneRes now window
      (recordResource res now st.resources)).length : Int) > threshold
  · exact absurd h (by simp [contextProcess, hc])
  · simp [contextProcess, hc]

theorem anomaly_counter_reset_on_pass_witness :
    (contextProcess 60 20 300 2 86400 (some "1") 0 ⟨[], 3, some 5, 0⟩).1.bolaViolations = 0
    ∧ (contextProcess 60 20 300 2 86400 (some "1") 0 ⟨[], 3, some 5, 0⟩).1.lastBola = none :=
  anomaly_counter_reset_on_pass 60 20 300 2 86400 (some "1") 0 ⟨[], 3, some 5, 0⟩ (by decide)

/-! ## Claim theorems: identifier derivation -/

/-- C9: identifier derivation is total — when the remote address parses as
host:port the identifier is the host portion alone; otherwise the entire
input is returned unchanged, hence never empty for non-empty input. -/
theorem extract_ip_fallback (s : String) :
    (∀ h p, splitHostPort s.data = some (h, p) → extractIP s = String.mk h)
    ∧ (splitHostPort s.data = none → extractIP s = s)
    ∧ (splitHostPort s.data = none → s ≠ "" → extractIP s ≠ "") := by
  refine ⟨?_, ?_, ?_⟩
  · intro h p hsp
    simp [extractIP, hsp]
  · intro hsp
    simp [extractIP, hsp]
  · intro hsp hne
    simpa [extractIP, hsp] using hne

theorem extract_ip_fallback_witness :
    splitHostPort ("1.2.3.4:80").data = some ("1.2.3.4".data, "80".data)
    ∧ extractIP "1.2.3.4:80" = "1.2.3.4"
    ∧ splitHostPort ("abc").data = none
    ∧ extractIP "abc" = "abc"
    ∧ extractIP "abc" ≠ "" := by
  refine ⟨by decide, ?_, by decide, ?_, ?_⟩
  · exact ((extract_ip_fallback "1.2.3.4:80").1 "1.2.3.4".data "80".data
      (by decide)).trans (by decide)
  · exact (extract_ip_fallback "abc").2.1 (by decide)
  · exact (extract_ip_fallback "abc").2.2 (by decide) (by decide)

/-! ## Claim theorems: configuration fallback -/

/-- C6 counterexample: with a configuration file present whose context
section sets a positive window but leaves threshold and ban seconds at
zero, the anomaly filter is constructed with threshold 0 and a zero ban
duration — the built-in defaults are NOT applied to these parameters. -/
theorem config_fallback_counterexample :
    (buildContext (some cfgWindowOnly)).threshold = 0
    ∧ (buildContext (some cfgWindowOnly)).banDuration = 0 := by
  constructor <;> norm_num [buildContext, cfgWindowOnly]

/-- C6 (amended): every rate-limit parameter falls back per-field to a
positive built-in default when absent or non-positive, and so do the
anomaly window, multiplier and violation-reset window; but whenever the
configured anomaly window is positive, the anomaly threshold and ban
seconds are taken from the configuration as-is, even when zero or
negative. -/
theorem config_fallback_amended (cfg : Option Config) :
    (0 < (buildRateLimit cfg).limit ∧ 0 < (buildRateLimit cfg).burst
      ∧ 0 < (buildRateLimit cfg).banDuration ∧ 0 < (buildRateLimit cfg).multiplier
      ∧ 0 < (buildRateLimit cfg).violationResetTTL)
    ∧ (0 < (buildContext cfg).window ∧ 0 < (buildContext cfg).multiplier
      ∧ 0 < (buildContext cfg).violationResetTTL)
    ∧ (∀ c, cfg = some c → 0 < c.context.windowSeconds →
        (buildContext cfg).threshold = c.context.threshold
        ∧ (buildContext cfg).banDuration = (c.context.banSeconds : Rat)) := by
  refine ⟨?_, ?_, ?_⟩
  · cases cfg with
    | none => norm_num [buildRateLimit, defaultRateLimitParams]
    | some c =>
      refine ⟨?_, ?_, ?_, ?_, ?_⟩ <;> simp only [buildRateLimit] <;> split_ifs with h
      · exact h
      · norm_num
      · exact h
      · norm_num
      · exact_mod_cast h
      · norm_num
      · exact h
      · norm_num
      · have hh : (0 : Rat) < (c.rateLimit.violationResetHrs : Rat) := by exact_mod_cast h
        exact mul_pos hh (by norm_num)
      · norm_num
  · cases cfg with
    | none => norm_num [buildContext, defaultContextParams]
    | some c =>
      by_cases hw : c.context.windowSeconds > 0
      · refine ⟨?_, ?_, ?_⟩
        · simp only [buildContext, if_pos hw]
          exact_mod_cast hw
        · simp only [buildContext, if_pos hw]
          split_ifs with h
          · exact h
          · norm_num
        · simp only [buildContext, if_pos hw]
          split_ifs with h
          · have hh : (0 : Rat) < (c.context.violationResetHours : Rat) := by exact_mod_cast h
            exact mul_pos hh (by norm_num)
          · norm_num
      · simp only [buildContext, if_neg hw]
        norm_num [defaultContextParams]
  · intro c hceq hcw
    subst hceq
    constructor <;> simp [buildContext, if_pos hcw]

theorem config_fallback_amended_witness :
    0 < (buildRateLimit (some cfgWindowOnly)).limit
    ∧ (buildContext (some cfgWindowOnly)).threshold = cfgWindowOnly.context.threshold := by
  have h := config_fallback_amended (some cfgWindowOnly)
  exact ⟨h.1.1, (h.2.2 cfgWindowOnly rfl (by decide)).1⟩

/-! ## Helper lemmas for the signature filter -/

theorem alphanum_not_special : ∀ c ∈ alphanumChars,
    c ≠ '%' ∧ c ≠ '+' ∧ c ≠ '&' ∧ c ≠ '/' ∧ c ≠ '-' ∧ c ≠ '<'
    ∧ c ≠ ':' ∧ c ≠ '=' ∧ c ≠ '.' := by decide

theorem alphanum_not_space : ∀ c ∈ alphanumChars,
    isTrimSpace c = false ∧ isRegexSpace c = false := by decide

theorem alphanum_toLower_mem : ∀ c ∈ alphanumChars,
    c.toLower ∈ alphanumChars := by decide

theorem band_left {a b : Bool} (h : (a && b) = true) : a = true := by
  cases a
  · simp at h
  · rfl

theorem band_right {a b : Bool} (h : (a && b) = true) : b = true := by
  cases a
  · simp at h
  · simpa using h

theorem percentDecodeAux_id : ∀ (fuel : Nat) (l : List Char),
    l.length ≤ fuel → (∀ c ∈ l, c ≠ '%' ∧ c ≠ '+') →
    percentDecodeAux fuel l = some l := by
  intro fuel
  induction fuel with
  | zero =>
    intro l hlen _
    rw [List.length_eq_zero.mp (Nat.le_zero.mp hlen)]
    rfl
  | succ fuel ih =>
    intro l hlen h
    cases l with
    | nil => rfl
    | cons c rest =>
      have hc := h c (List.mem_cons_self c rest)
      have hlen2 : rest.length ≤ fuel := by
        simp only [List.length_cons] at hlen
        omega
      have hrest := ih rest hlen2 (fun x hx => h x (List.mem_cons_of_mem c hx))
      simp [percentDecodeAux, hc.1, hc.2, hrest]

theorem percentDecode_id (l : List Char) (h : ∀ c ∈ l, c ≠ '%' ∧ c ≠ '+') :
    percentDecode l = some l :=
  percentDecodeAux_id l.length l le_rfl h

theorem htmlUnescapeAux_id : ∀ (fuel : Nat) (l : List Char),
    (∀ c ∈ l, c ≠ '&') → htmlUnescapeAux fuel l = l := by
  intro fuel
  induction fuel with
  | zero => intro l _; rfl
  | succ fuel ih =>
    intro l h
    cases l with
    | nil => rfl
    | cons c rest =>
      have hc := h c (List.mem_cons_self c rest)
      simp [htmlUnescapeAux, hc, ih rest (fun x hx => h x (List.mem_cons_of_mem c hx))]

theorem htmlUnescape_id (l : List Char) (h : ∀ c ∈ l, c ≠ '&') :
    htmlUnescape l = l :=
  htmlUnescapeAux_id l.length l h

theorem dropWhile_eq_self_of_none {p : Char → Bool} :
    ∀ (l : List Char), (∀ c ∈ l, p c = false) → l.dropWhile p = l
  | [], _ => rfl
  | c :: rest, h => by
    simp [List.dropWhile, h c (List.mem_cons_self c rest)]

theorem trimSpaceStr_id (l : List Char) (h : ∀ c ∈ l, isTrimSpace c = false) :
    trimSpaceStr l = l := by
  unfold trimSpaceStr
  rw [dropWhile_eq_self_of_none l h,
    dropWhile_eq_self_of_none l.reverse (fun c hc => h c (List.mem_reverse.mp hc)),
    List.reverse_reverse]

theorem collapseWsAux_id (l : List Char) (h : ∀ c ∈ l, isRegexSpace c = false) :
    ∀ b, collapseWsAux b l = l := by
  induction l with
  | nil => intro b; rfl
  | cons c rest ih =>
    intro b
    simp [collapseWsAux, h c (List.mem_cons_self c rest),
      ih (fun x hx => h x (List.mem_cons_of_mem c hx)) false]

theorem stripDelimAux_id (x : Char) (s1 stop : List Char) :
    ∀ (fuel : Nat) (l : List Char), (∀ c ∈ l, c ≠ x) →
    stripDelimAux (x :: s1) stop fuel l = l := by
  intro fuel
  induction fuel with
  | zero => intro l _; rfl
  | succ fuel ih =>
    intro l h
    cases l with
    | nil => rfl
    | cons c rest =>
      have hc : c ≠ x := h c (List.mem_cons_self c rest)
      have hpre : (x :: s1).isPrefixOf (c :: rest) = false := by
        simp [List.isPrefixOf]
        intro heq
        exact absurd heq.symm hc
      simp [stripDelimAux, hpre, ih rest (fun y hy => h y (List.mem_cons_of_mem c hy))]

theorem stripLineAux_id : ∀ (fuel : Nat) (l : List Char),
    (∀ c ∈ l, c ≠ '-') → stripLineAux fuel l = l := by
  intro fuel
  induction fuel with
  | zero => intro l _; rfl
  | succ fuel ih =>
    intro l h
    cases l with
    | nil => rfl
    | cons c rest =>
      have hc := h c (List.mem_cons_self c rest)
      simp [stripLineAux, hc, ih rest (fun y hy => h y (List.mem_cons_of_mem c hy))]

theorem normalize_alphanum (l : List Char) (h : ∀ c ∈ l, c ∈ alphanumChars) :
    normalizeForSignature l = l.map Char.toLower
    ∧ ∀ c ∈ l.map Char.toLower, c ∈ alphanumChars := by
  have hmem : ∀ c ∈ l.map Char.toLower, c ∈ alphanumChars := by
    intro c hc
    rcases List.mem_map.mp hc with ⟨a, ha, rfl⟩
    exact alphanum_toLower_mem a (h a ha)
  refine ⟨?_, hmem⟩
  by_cases hnil : l = []
  · subst hnil; rfl
  · have h1 : percentDecode l = some l :=
      percentDecode_id l (fun c hc =>
        ⟨(alphanum_not_special c (h c hc)).1, (alphanum_not_special c (h c hc)).2.1⟩)
    have h2 : htmlUnescape l = l :=
      htmlUnescape_id l (fun c hc => (alphanum_not_special c (h c hc)).2.2.1)
    have h4 : trimSpaceStr (l.map Char.toLower) = l.map Char.toLower :=
      trimSpaceStr_id _ (fun c hc => (alphanum_not_space c (hmem c hc)).1)
    have h5 : collapseWs (l.map Char.toLower) = l.map Char.toLower :=
      collapseWsAux_id _ (fun c hc => (alphanum_not_space c (hmem c hc)).2) false
    have h6 : stripDelim ['/', '*'] ['*', '/'] (l.map Char.toLower)
        = l.map Char.toLower :=
      stripDelimAux_id '/' ['*'] ['*', '/'] _ _
        (fun c hc => (alphanum_not_special c (hmem c hc)).2.2.2.1)
    have h7 : stripLineComments (l.map Char.toLower) = l.map Char.toLower :=
      stripLineAux_id _ _ (fun c hc => (alphanum_not_special c (hmem c hc)).2.2.2.2.1)
    have h8 : stripDelim ['<', '!', '-', '-'] ['-', '-', '>'] (l.map Char.toLower)
        = l.map Char.toLower :=
      stripDelimAux_id '<' ['!', '-', '-'] ['-', '-', '>'] _ _
        (fun c hc => (alphanum_not_special c (hmem c hc)).2.2.2.2.2.1)
    simp only [normalizeForSignature, if_neg hnil, h1, h2, h4, h5]
    rw [h6, h7, h8]

theorem anySuffix_mem {p : List Char → Bool} {Q : Char → Prop} :
    ∀ l, anySuffix p l = true → (∀ t, p t = true → ∃ c ∈ t, Q c) →
    ∃ c ∈ l, Q c := by
  intro l
  induction l with
  | nil =>
    intro h hp
    exact hp [] (by simpa [anySuffix] using h)
  | cons c rest ih =>
    intro h hp
    rcases Bool.or_eq_true_iff.mp (by simpa [anySuffix] using h) with h1 | h1
    · exact hp (c :: rest) h1
    · rcases ih h1 hp with ⟨x, hx, hQ⟩
      exact ⟨x, List.mem_cons_of_mem c hx, hQ⟩

theorem isPrefixOf_mem : ∀ (pat t : List Char), pat.isPrefixOf t = true →
    ∀ c ∈ pat, c ∈ t := by
  intro pat
  induction pat with
  | nil => intro t _ c hc; simp at hc
  | cons a as ih =>
    intro t h c hc
    cases t with
    | nil => simp [List.isPrefixOf] at h
    | cons b bs =>
      have h2 : a = b ∧ as.isPrefixOf bs = true := by
        simpa [List.isPrefixOf] using h
      rcases List.mem_cons.mp hc with rfl | hc
      · exact h2.1 ▸ List.mem_cons_self b bs
      · exact List.mem_cons_of_mem b (ih bs h2.2 c hc)

theorem dropWhile_subset {p : Char → Bool} :
    ∀ (l : List Char) {c : Char}, c ∈ l.dropWhile p → c ∈ l := by
  intro l
  induction l with
  | nil => intro c hc; simp at hc
  | cons a rest ih =>
    intro c hc
    by_cases hp : p a
    · exact List.mem_cons_of_mem a (ih (by simpa [List.dropWhile, hp] using hc))
    · simpa [List.dropWhile, hp] using hc

theorem ruleSqlKeyword_space {l : List Char} (h : ruleSqlKeyword l = true) :
    ∃ c ∈ l.map Char.toLower, isRegexSpace c = true := by
  refine anySuffix_mem _ h ?_
  intro t ht
  unfold sqlAt at ht
  rcases List.any_eq_true.mp ht with ⟨kw, hkwmem, hkw⟩
  have hafter : sqlAfterKw (t.drop kw.length) = true := band_right hkw
  cases hd : t.drop kw.length with
  | nil => rw [hd] at hafter; simp [sqlAfterKw] at hafter
  | cons c rest =>
    rw [hd] at hafter
    unfold sqlAfterKw at hafter
    have hc : isRegexSpace c = true := band_left hafter
    have hmem : c ∈ t.drop kw.length := by
      rw [hd]; exact List.mem_cons_self c rest
    exact ⟨c, List.drop_subset _ _ hmem, hc⟩

theorem ruleScriptTag_lt {l : List Char} (h : ruleScriptTag l = true) :
    ∃ c ∈ l.map Char.toLower, c = '<' := by
  refine anySuffix_mem _ h ?_
  intro t ht
  unfold scriptAt at ht
  exact ⟨'<', isPrefixOf_mem _ _ (band_left ht) '<' (by decide), rfl⟩

theorem ruleJavascriptScheme_colon {l : List Char}
    (h : ruleJavascriptScheme l = true) :
    ∃ c ∈ l.map Char.toLower, c = ':' := by
  unfold ruleJavascriptScheme containsSeq at h
  refine anySuffix_mem _ h ?_
  intro t ht
  exact ⟨':', isPrefixOf_mem _ _ ht ':' (by decide), rfl⟩

theorem ruleOnHandler_eq {kw : List Char} {l : List Char}
    (h : ruleOnHandler kw l = true) :
    ∃ c ∈ l.map Char.toLower, c = '=' := by
  refine anySuffix_mem _ h ?_
  intro t ht
  unfold onAt at ht
  have hmatch := band_right ht
  cases hd : (t.drop kw.length).dropWhile isRegexSpace with
  | nil => rw [hd] at hmatch; simp at hmatch
  | cons c rest =>
    rw [hd] at hmatch
    have hc : c = '=' := by simpa using hmatch
    have hmem : c ∈ (t.drop kw.length).dropWhile isRegexSpace := by
      rw [hd]; exact List.mem_cons_self c rest
    exact ⟨'=', hc ▸ List.drop_subset _ _ (dropWhile_subset _ hmem), rfl⟩

theorem rulePathTraversal_dot {l : List Char} (h : rulePathTraversal l = true) :
    ∃ c ∈ l.map Char.toLower, c = '.' := by
  refine anySuffix_mem _ h ?_
  intro t ht
  cases t with
  | nil => simp [travAt] at ht
  | cons a t1 =>
    cases t1 with
    | nil => simp [travAt] at ht
    | cons b t2 =>
      cases t2 with
      | nil => simp [travAt] at ht
      | cons c t3 =>
        unfold travAt at ht
        have ha : a = '.' := by
          have := band_left (band_left ht)
          simpa using this
        exact ⟨a, List.mem_cons_self a _, ha⟩

theorem signatureCheck_alphanum (p q : String)
    (hp : ∀ c ∈ p.data, c ∈ alphanumChars)
    (hq : ∀ c ∈ q.data, c ∈ alphanumChars) :
    signatureCheck p q = false := by
  have main : ∀ (l : List Char), (∀ c ∈ l, c ∈ alphanumChars) →
      ∀ rule ∈ signatureRules, rule (normalizeForSignature l) = false := by
    intro l hl rule hrule
    obtain ⟨hnorm, hmem⟩ := normalize_alphanum l hl
    rw [hnorm]
    have hmem2 : ∀ c ∈ (l.map Char.toLower).map Char.toLower, c ∈ alphanumChars := by
      intro c hc
      rcases List.mem_map.mp hc with ⟨a, ha, rfl⟩
      exact alphanum_toLower_mem a (hmem a ha)
    cases hcase : rule (l.map Char.toLower) with
    | false => rfl
    | true =>
      exfalso
      simp only [signatureRules, List.mem_cons, List.not_mem_nil, or_false] at hrule
      rcases hrule with rfl | rfl | rfl | rfl | rfl | rfl
      · rcases ruleSqlKeyword_space hcase with ⟨c, hcmem, hcsp⟩
        have hns := (alphanum_not_space c (hmem2 c hcmem)).2
        rw [hns] at hcsp
        exact absurd hcsp (by decide)
      · rcases ruleScriptTag_lt hcase with ⟨c, hcmem, rfl⟩
        exact (alphanum_not_special _ (hmem2 _ hcmem)).2.2.2.2.2.1 rfl
      · rcases ruleJavascriptScheme_colon hcase with ⟨c, hcmem, rfl⟩
        exact (alphanum_not_special _ (hmem2 _ hcmem)).2.2.2.2.2.2.1 rfl
      · rcases ruleOnHandler_eq hcase with ⟨c, hcmem, rfl⟩
        exact (alphanum_not_special _ (hmem2 _ hcmem)).2.2.2.2.2.2.2.1 rfl
      · rcases ruleOnHandler_eq hcase with ⟨c, hcmem, rfl⟩
        exact (alphanum_not_special _ (hmem2 _ hcmem)).2.2.2.2.2.2.2.1 rfl
      · rcases rulePathTraversal_dot hcase with ⟨c, hcmem, rfl⟩
        exact (alphanum_not_special _ (hmem2 _ hcmem)).2.2.2.2.2.2.2.2 rfl
  unfold signatureCheck
  rw [List.any_eq_false]
  intro s hs
  have hsmem : ∀ c ∈ s, c ∈ alphanumChars := by
    rcases List.mem_cons.mp hs with rfl | hs2
    · exact hp
    · rcases List.mem_cons.mp hs2 with rfl | hs3
      · exact hq
      · simp at hs3
  rw [List.any_eq_true]
  rintro ⟨rule, hrule, hx⟩
  rw [main s hsmem rule hrule] at hx
  exact absurd hx (by decide)

/-! ## Claim theorems: signature filter -/

/-- C4: a query string carrying `<script>alert(1)</script>` — raw,
percent-encoded, or HTML-entity-encoded — is rejected after the
normalization pipeline because it matches the default script-tag rule;
conversely a request whose path and query consist only of benign
alphanumeric characters matches no default rule and is never rejected. -/
theorem signature_filter_detection :
    signatureCheck "/search" "q=<script>alert(1)</script>" = true
    ∧ signatureCheck "/search" "q=%3Cscript%3Ealert%281%29%3C%2Fscript%3E" = true
    ∧ signatureCheck "/search" "q=&lt;script&gt;alert(1)&lt;/script&gt;" = true
    ∧ ∀ p q : String, (∀ c ∈ p.data, c ∈ alphanumChars) →
        (∀ c ∈ q.data, c ∈ alphanumChars) → signatureCheck p q = false :=
  ⟨by decide, by decide, by decide, signatureCheck_alphanum⟩

theorem signature_filter_detection_witness :
    signatureCheck "benign123" "q42abc" = false :=
  signature_filter_detection.2.2.2 "benign123" "q42abc" (by decide) (by decide)

/-! ## Claim theorems: missing-identifier pass-through -/

/-- C5 counterexample: for the empty derived identifier (absent state) the
anomaly and rate-limit filters do pass the request through, but the
signature filter — which never consults the per-identifier state — still
filters and rejects a matching request, so "every filter passes the request
through without filtering" is false. -/
theorem missing_id_passthrough_counterexample :
    stateAbsent (extractIP "") = true
    ∧ contextPush 60 20 300 2 86400 false none (some "1") 0
        = (none, Decision.next)
    ∧ rateLimitPush 30 2 86400 false none true 0 = (none, Decision.next)
    ∧ signaturePush false "/a" "x=javascript:alert(1)" = Decision.forbidden :=
  ⟨by decide, by decide, by decide, by decide⟩

/-- C5 (amended): on an absent per-identifier state the anomaly and
rate-limit filters pass the request through unfiltered; the signature
filter does not consult per-identifier state at all, so it filters every
non-banned request regardless of the identifier — rejecting on a rule match
and passing through otherwise. -/
theorem missing_id_passthrough_amended (window threshold : Int)
    (banBase mult : Rat) (resetTTL : Int) (res : Option String) (now : Int)
    (base rmult : Rat) (rTTL : Int) (allowed : Bool) (p q : String) :
    contextPush window threshold banBase mult resetTTL false none res now
      = (none, Decision.next)
    ∧ rateLimitPush base rmult rTTL false none allowed now
      = (none, Decision.next)
    ∧ (signatureCheck p q = true → signaturePush false p q = Decision.forbidden)
    ∧ (signatureCheck p q = false → signaturePush false p q = Decision.next) := by
  refine ⟨rfl, rfl, ?_, ?_⟩
  · intro h
    simp [signaturePush, h]
  · intro h
    simp [signaturePush, h]

theorem missing_id_passthrough_amended_witness :
    contextPush 60 20 300 2 86400 false none (some "1") 0
      = (none, Decision.next)
    ∧ signaturePush false "/a" "x=javascript:alert(1)" = Decision.forbidden
    ∧ signaturePush false "abc" "def" = Decision.next := by
  have h1 := missing_id_passthrough_amended 60 20 300 2 86400 (some "1") 0
    30 2 86400 true "/a" "x=javascript:alert(1)"
  have h2 := missing_id_passthrough_amended 60 20 300 2 86400 (some "1") 0
    30 2 86400 true "abc" "def"
  exact ⟨h1.1, h1.2.2.1 (by decide), h2.2.2.2 (by decide)⟩
